import Mathlib

/-!
Shallow embedding of the ryOS composite-forecasting core
(`scripts/calculate-weather.py`, with the rolling-history builder from
`scripts/backfill-history.py` and the activity builders from
`scripts/fetch-changelogs.py` / `scripts/backfill-history.py`).

Numbers are modelled as rationals (`ℚ`); Python's `None` becomes `Option`;
JSON objects become structures whose optional keys are `Option` fields, a
key read with `.get(k, default)` becoming a total field whose missing case
is the default.  Dictionaries iterated in insertion order become lists of
pairs.  Dates/times are modelled as a rational time coordinate, one unit
per day, so `timedelta(days = d)` is subtraction of `d`.
-/

namespace RyOS

/-- A per-signal score record as placed in `signals` by `main`
(`calculate-weather.py` lines 276-279): the rounded value and the
`vs_peers` delta string, either possibly `None`. -/
structure SignalOut where
  value : Option ℚ
  vs_peers : Option String
deriving Repr, DecidableEq

/-! ### Weather thresholds and classifier (`calculate-weather.py` 13-19, 193-209) -/

/-- The table `WEATHER_THRESHOLDS` (lines 13-19); unknown keys do not occur. -/
def WEATHER_THRESHOLDS (k : String) : ℚ :=
  if k = "sunny" then 6/10
  else if k = "partly_cloudy" then 3/10
  else if k = "cloudy" then 0
  else if k = "rainy" then -(3/10)
  else -1

/-- The `description` field of `WEATHER_INFO` (lines 22-29). -/
def WEATHER_INFO_description (k : String) : Option String :=
  if k = "sunny" then some "Bright outlook with strong signals"
  else if k = "partly_cloudy" then some "Mixed signals, some uncertainty"
  else if k = "cloudy" then some "Below average performance"
  else if k = "rainy" then some "Concerning trends emerging"
  else if k = "stormy" then some "Turbulent times ahead"
  else if k = "foggy" then some "Insufficient data available"
  else none

/-- Function `determine_weather` (lines 193-209): `None` is foggy, otherwise the
score is rescaled to `[-1, 1]` and run down the strict-`>` threshold
chain. -/
def determine_weather (score : Option ℚ) : String :=
  match score with
  | none => "foggy"
  | some s =>
    let adjusted_score := s * 2 - 1
    if adjusted_score > WEATHER_THRESHOLDS "sunny" then "sunny"
    else if adjusted_score > WEATHER_THRESHOLDS "partly_cloudy" then "partly_cloudy"
    else if adjusted_score > WEATHER_THRESHOLDS "cloudy" then "cloudy"
    else if adjusted_score > WEATHER_THRESHOLDS "rainy" then "rainy"
    else "stormy"

/-! ### Composite scorer (`calculate-weather.py` 32-37, 281-290) -/

/-- The table `WEIGHTS` (lines 32-37) in insertion order. -/
def WEIGHTS : List (String × ℚ) :=
  [("sentiment", 1/4), ("shipping", 1/4), ("market", 1/4), ("competitive", 1/4)]

/-- The composite accumulation loop of `main` (lines 282-290) over a list
of (optional score, weight) entries: present scores add `value * weight`
to the weighted sum and `weight` to the total weight; the composite is
their quotient, absent when the total weight is not positive. -/
def compositeOf (entries : List (Option ℚ × ℚ)) : Option ℚ :=
  let acc := entries.foldl
    (fun (a : ℚ × ℚ) e =>
      match e.1 with
      | some value => (a.1 + value * e.2, a.2 + e.2)
      | none => a)
    (0, 0)
  if 0 < acc.2 then some (acc.1 / acc.2) else none

/-- The composite score of one organization: the loop of lines 284-288 runs
over `WEIGHTS.items()` with that organization's four signal scores. -/
def compositeScore (sentiment shipping market competitive : Option ℚ) : Option ℚ :=
  compositeOf
    [(sentiment, 1/4), (shipping, 1/4), (market, 1/4), (competitive, 1/4)]

/-- Spec-side reading: the weighted sum over exactly the present entries. -/
def presentWeightedSum (entries : List (Option ℚ × ℚ)) : ℚ :=
  (entries.filterMap (fun e => e.1.map (· * e.2))).sum

/-- Spec-side reading: the total weight of exactly the present entries. -/
def presentWeightSum (entries : List (Option ℚ × ℚ)) : ℚ :=
  ((entries.filter (fun e => e.1.isSome)).map (·.2)).sum

/-! ### Sentiment scorer (`calculate-weather.py` 65-84) -/

/-- The `sentiment` object of a mood document (`{score, label}`); `score`
is read with `.get("score", 0)`. -/
structure MoodSentiment where
  score : Option ℚ
deriving Repr, DecidableEq

/-- A mood document; the `sentiment` key may be missing. -/
structure MoodData where
  sentiment : Option MoodSentiment
deriving Repr, DecidableEq

/-- One organization's entry in the buzz document's `companies` table;
`sentiment` and `total_points` are read with `.get(k, 0)`. -/
structure BuzzCompany where
  sentiment : Option ℚ
  total_points : Option ℚ
deriving Repr, DecidableEq

/-- A buzz document; the `companies` key may be missing. -/
structure BuzzData where
  companies : Option (List (String × BuzzCompany))
deriving Repr, DecidableEq

/-- Function `calculate_sentiment_score` (lines 65-84).  The blog side contributes
when the mood document has a `sentiment` object (its `score` defaulting to
0); the buzz side contributes when the buzz document has a `companies`
table, the organization's entry defaulting to `{}` and its `sentiment` to
0.  The result is the mean of the contributions, `None` when there are
none. -/
def calculate_sentiment_score (mood_data : Option MoodData)
    (buzz_data : Option BuzzData) (company_id : String) : Option ℚ :=
  let blogScores : List ℚ :=
    match mood_data with
    | some m =>
      match m.sentiment with
      | some s => [((s.score.getD 0) + 1) / 2]
      | none => []
    | none => []
  let buzzScores : List ℚ :=
    match buzz_data with
    | some b =>
      match b.companies with
      | some companies =>
        let company_buzz := (companies.lookup company_id).getD ⟨none, none⟩
        [((company_buzz.sentiment.getD 0) + 1) / 2]
      | none => []
    | none => []
  let scores := blogScores ++ buzzScores
  if scores = [] then none else some (scores.sum / scores.length)

/-! ### Shipping scorer (`calculate-weather.py` 87-107) -/

/-- One organization's entry in the pulse document's `companies` table;
`activity` and `releases` are read with `.get(k, [])`.  Release records
are opaque here (only dates matter elsewhere). -/
structure PulseCompany where
  activity : List ℚ
  releases : List String
deriving Repr, DecidableEq

/-- A pulse document; the `companies` key may be missing. -/
structure PulseData where
  companies : Option (List (String × PulseCompany))
deriving Repr, DecidableEq

/-- Function `calculate_shipping_score` (lines 87-107): `activity[:7]` (the FIRST
seven entries of the series), averaged, divided by 3.0 and clamped to
1.0. -/
def calculate_shipping_score (pulse_data : Option PulseData)
    (company_id : String) : Option ℚ :=
  match pulse_data with
  | none => none
  | some p =>
    match p.companies with
    | none => none
    | some companies =>
      let company_pulse := (companies.lookup company_id).getD ⟨[], []⟩
      let activity := company_pulse.activity
      if activity = [] then none
      else
        let recent_activity :=
          if activity.length ≥ 7 then activity.take 7 else activity
        let avg_recent :=
          if recent_activity = [] then 0
          else recent_activity.sum / recent_activity.length
        some (min 1 (avg_recent / 3))

/-! ### Market scorer (`calculate-weather.py` 40-45, 110-141) -/

/-- Lookup `COMPANY_STOCK_MAP.get(company_id)` (lines 40-45): `anthropic` maps
to `None` explicitly; unknown identifiers read as `None` too. -/
def COMPANY_STOCK_MAP (company_id : String) : Option String :=
  if company_id = "anthropic" then none
  else if company_id = "openai" then some "MSFT"
  else if company_id = "google" then some "GOOGL"
  else if company_id = "meta" then some "META"
  else none

/-- One entry of the pressure document's `stocks` array; `history` is read
with `.get("history", [])`. -/
structure Stock where
  ticker : String
  history : List ℚ
deriving Repr, DecidableEq

/-- A pressure document; the `stocks` key may be missing. -/
structure StocksData where
  stocks : Option (List Stock)
deriving Repr, DecidableEq

/-- Expression `history[-1] if history else 0` (line 131). -/
def latestClose (history : List ℚ) : ℚ := history.getLastD 0

/-- Expression `sum(history[-30:]) / min(len(history), 30) if history else 0`
(line 132): the mean of the trailing `min(30, N)` closes. -/
def trailingAvg (history : List ℚ) : ℚ :=
  if history = [] then 0
  else (history.drop (history.length - 30)).sum / (min history.length 30 : ℕ)

/-- Function `calculate_market_score` (lines 110-141). -/
def calculate_market_score (stocks_data : Option StocksData)
    (company_id : String) : Option ℚ :=
  match stocks_data with
  | none => none
  | some d =>
    match d.stocks with
    | none => none
    | some stocks =>
      match COMPANY_STOCK_MAP company_id with
      | none => none
      | some ticker =>
        match stocks.find? (fun s => s.ticker == ticker) with
        | none => none
        | some stock =>
          if stock.history.length < 10 then none
          else
            let recent_price := latestClose stock.history
            let avg_30d := trailingAvg stock.history
            if avg_30d = 0 then some (1/2)
            else
              let momentum := recent_price / avg_30d
              some (max 0 (min 1 ((momentum - 8/10) / (4/10))))

/-! ### Peer comparator (`calculate-weather.py` 181-190) -/

/-- Fixed two-decimal rendering of a rational, modelling `f"{diff:.2f}"`
(the tie-at-half behaviour of binary floats is immaterial to every result
proved below). -/
def fmt2 (q : ℚ) : String :=
  let m : ℕ := (round (|q| * 100)).toNat
  let intPart := toString (m / 100)
  let frac := m % 100
  let fracStr := if frac < 10 then "0" ++ toString frac else toString frac
  (if q < 0 then "-" else "") ++ intPart ++ "." ++ fracStr

/-- Function `calculate_vs_peers` (lines 181-190): `None` when the value is absent
or the roster is empty or no roster value is present; otherwise the
two-decimal delta against the mean of the present roster values, with an
explicit `+` for non-negative deltas. -/
def calculate_vs_peers (value : Option ℚ) (all_values : List (Option ℚ)) :
    Option String :=
  match value with
  | none => none
  | some v =>
    if all_values = [] then none
    else
      let valid_values := all_values.filterMap id
      if valid_values = [] then none
      else
        let avg := valid_values.sum / valid_values.length
        let diff := v - avg
        some (if diff ≥ 0 then "+" ++ fmt2 diff else fmt2 diff)

/-! ### Summary generator (`calculate-weather.py` 212-231) -/

/-- Value of a decimal digit character. -/
def digitVal (c : Char) : ℕ := c.toNat - 48

/-- The natural number a run of decimal digits denotes. -/
def decDigits (l : List Char) : ℕ := l.foldl (fun a c => 10 * a + digitVal c) 0

/-- Value of an unsigned decimal literal `int.frac`. -/
def parseUnsignedDec (l : List Char) : ℚ :=
  let intPart := l.takeWhile (fun c => c ≠ '.')
  let fracPart := (l.dropWhile (fun c => c ≠ '.')).drop 1
  (decDigits intPart : ℚ) + (decDigits fracPart : ℚ) / 10 ^ fracPart.length

/-- Python's `float(s)` on the signed fixed-point strings this program
produces (`±d.dd`). -/
def parseFloat (s : String) : ℚ :=
  match s.toList with
  | '-' :: rest => -(parseUnsignedDec rest)
  | '+' :: rest => parseUnsignedDec rest
  | l => parseUnsignedDec l

/-- Python's `s.startswith(pre)`, evaluated as a character-list prefix
test. -/
def strStarts (pre s : String) : Bool := List.isPrefixOf pre.toList s.toList

/-- The strength test of `generate_summary` (line 219):
`vs_peers and vs_peers.startswith("+") and float(vs_peers[1:]) > 0.1`. -/
def summaryStrength (so : SignalOut) : Bool :=
  match so.vs_peers with
  | some vp => vp ≠ "" && strStarts "+" vp && decide ((1 : ℚ)/10 < parseFloat (vp.drop 1))
  | none => false

/-- The weakness test of `generate_summary` (line 221):
`vs_peers and vs_peers.startswith("-") and float(vs_peers[1:]) < -0.1`. -/
def summaryWeakness (so : SignalOut) : Bool :=
  match so.vs_peers with
  | some vp => vp ≠ "" && strStarts "-" vp && decide (parseFloat (vp.drop 1) < -((1 : ℚ)/10))
  | none => false

/-- The `strengths` list accumulated by `generate_summary` (lines 214-219). -/
def strengthsOf (signals : List (String × SignalOut)) : List String :=
  (signals.filter (fun p => summaryStrength p.2)).map (·.1)

/-- The `weaknesses` list accumulated by `generate_summary` (lines 215-222). -/
def weaknessesOf (signals : List (String × SignalOut)) : List String :=
  (signals.filter (fun p => summaryWeakness p.2)).map (·.1)

/-- Function `generate_summary` (lines 212-231). -/
def generate_summary (signals : List (String × SignalOut)) (weather : String) :
    String :=
  let strengths := strengthsOf signals
  let weaknesses := weaknessesOf signals
  if strengths ≠ [] ∧ weaknesses = [] then
    "Outperforming on " ++ String.intercalate ", " strengths
  else if weaknesses ≠ [] ∧ strengths = [] then
    "Challenges in " ++ String.intercalate ", " weaknesses
  else if strengths ≠ [] ∧ weaknesses ≠ [] then
    "Strong " ++ String.intercalate ", " strengths ++ "; watching " ++
      String.intercalate ", " weaknesses
  else (WEATHER_INFO_description weather).getD "Performance tracking"

/-! ### Weekly activity builders (`fetch-changelogs.py` 269-291,
`backfill-history.py` 485-503) -/

/-- A release record; only the optional date matters here. -/
structure Release where
  datetime : Option ℚ
deriving Repr, DecidableEq

/-- The body of both weekly loops: the number of releases whose date lies
in `[today - (week+1)*7, today - week*7)`, dateless releases skipped. -/
def weekCount (today : ℚ) (week : ℕ) (releases : List Release) : ℕ :=
  (releases.filter (fun r =>
    match r.datetime with
    | some d =>
      decide (today - ((week : ℚ) + 1) * 7 ≤ d) && decide (d < today - (week : ℚ) * 7)
    | none => false)).length

/-- The index sequence of Python's `range(n-1, -1, -1)`:
`[n-1, n-2, ..., 0]`. -/
def downFrom : ℕ → List ℕ
  | 0 => []
  | n + 1 => n :: downFrom n

/-- Function `calculate_real_activity` (`backfill-history.py` 485-503): weeks
`weeks-1` down to `0`, each count appended, so the series is
oldest-first. -/
def calculate_real_activity (today : ℚ) (releases : List Release)
    (weeks : ℕ) : List ℕ :=
  (downFrom weeks).map (fun week => weekCount today week releases)

/-- Function `calculate_activity` (`fetch-changelogs.py` 269-291): weeks `0` to
`13`, each count inserted at the front, which again yields the
oldest-first series of 14 weekly counts. -/
def calculate_activity (now : ℚ) (releases : List Release) : List ℕ :=
  (downFrom 14).map (fun week => weekCount now week releases)

/-! ### Rolling mood history (`backfill-history.py` 237-281) -/

/-- A blog post as consumed by `build_mood_history`: the optional date
and the sentiment read with `.get("sentiment", 0)`. -/
structure Post where
  datetime : Option ℚ
  sentiment : Option ℚ
deriving Repr, DecidableEq

/-- Python's `round(x, 3)` (ties at half-thousandths follow Mathlib's
`round`; immaterial to every result proved below). -/
def round3 (q : ℚ) : ℚ := round (q * 1000) / 1000

/-- Sum of the posts' sentiments, each read with `.get("sentiment", 0)`. -/
def postsSentSum (l : List Post) : ℚ := (l.map (fun p => p.sentiment.getD 0)).sum

/-- The mean sentiment of a list of posts (`sum(...)/len(...)`). -/
def postsSentAvg (l : List Post) : ℚ := postsSentSum l / l.length

/-- The posts of the 7-day window ending `offset` days before `today`
(line 265-268): dated `d` with `today - offset - 7 ≤ d ≤ today - offset`. -/
def windowPosts (today : ℚ) (dated : List Post) (offset : ℕ) : List Post :=
  dated.filter (fun p =>
    match p.datetime with
    | some d =>
      decide (today - (offset : ℚ) - 7 ≤ d) && decide (d ≤ today - (offset : ℚ))
    | none => false)

/-- Stable insertion of a post into a list sorted by date. -/
def insertByDate (p : Post) : List Post → List Post
  | [] => [p]
  | q :: rest =>
    if q.datetime.getD 0 ≤ p.datetime.getD 0 then q :: insertByDate p rest
    else p :: q :: rest

/-- Python's `dated_posts.sort(key=lambda x: x["datetime"])` (line 253): a
stable sort by date. -/
def sortByDate (l : List Post) : List Post := l.foldr insertByDate []

/-- The `dated_posts` list of `build_mood_history` (lines 246, 253):
posts with a date, sorted by it. -/
def datedSorted (posts : List Post) : List Post :=
  sortByDate (posts.filter (fun p => p.datetime.isSome))

/-- The day loop of `build_mood_history` (lines 258-279), one output per
offset: the rounded window average, an empty window falling back to the
previously emitted value and, failing that, to the overall average of the
dated posts. -/
def moodLoop (today : ℚ) (dated : List Post) :
    Option ℚ → List ℕ → List ℚ
  | _, [] => []
  | prev, offset :: rest =>
    let wp := windowPosts today dated offset
    let avg_sentiment :=
      if wp ≠ [] then postsSentAvg wp
      else
        match prev with
        | some h => h
        | none => postsSentAvg dated
    let v := round3 avg_sentiment
    v :: moodLoop today dated (some v) rest

/-- Function `build_mood_history` (lines 237-281). -/
def build_mood_history (today : ℚ) (posts : List Post) (days : ℕ) : List ℚ :=
  if posts = [] then []
  else
    let dated := datedSorted posts
    if dated = [] then
      List.replicate (min 7 days) (round3 (postsSentAvg posts))
    else
      moodLoop today dated none (downFrom days)

/-! ### Spec-side sentiment sources -/

/-- Spec-side reading of the blog source: present exactly when the mood
document carries a `sentiment` object, its value the rescaled score. -/
def blogContribution (mood_data : Option MoodData) : Option ℚ :=
  (mood_data.bind (·.sentiment)).map (fun s => ((s.score.getD 0) + 1) / 2)

/-- Spec-side reading of the discussion-forum source: present exactly when
the buzz document carries a `companies` table, its value the rescaled
sentiment of the organization's entry (a missing entry or sentiment
reading as 0). -/
def buzzContribution (buzz_data : Option BuzzData) (company_id : String) :
    Option ℚ :=
  (buzz_data.bind (·.companies)).map (fun companies =>
    ((((companies.lookup company_id).getD ⟨none, none⟩).sentiment.getD 0) + 1) / 2)

/-! ## Helper lemmas -/

lemma sum_pos_of_all_nonneg_of_mem_pos (l : List ℚ)
    (hnn : ∀ x ∈ l, 0 ≤ x) (hex : ∃ x ∈ l, 0 < x) : 0 < l.sum := by
  induction l with
  | nil => obtain ⟨x, hx, _⟩ := hex; cases hx
  | cons a t ih =>
    rcases hex with ⟨x, hx, hxpos⟩
    rcases List.mem_cons.mp hx with rfl | hxt
    · have ht : 0 ≤ t.sum := List.sum_nonneg (fun y hy => hnn y (List.mem_cons_of_mem _ hy))
      simpa [List.sum_cons] using add_pos_of_pos_of_nonneg hxpos ht
    · have ha : 0 ≤ a := hnn a (List.mem_cons_self a t)
      have ht : 0 < t.sum :=
        ih (fun y hy => hnn y (List.mem_cons_of_mem _ hy)) ⟨x, hxt, hxpos⟩
      simpa [List.sum_cons] using add_pos_of_nonneg_of_pos ha ht

lemma compositeOf_foldl (entries : List (Option ℚ × ℚ)) :
    ∀ a b : ℚ,
      entries.foldl
        (fun (a : ℚ × ℚ) e =>
          match e.1 with
          | some value => (a.1 + value * e.2, a.2 + e.2)
          | none => a)
        (a, b)
      = (a + presentWeightedSum entries, b + presentWeightSum entries) := by
  induction entries with
  | nil => intro a b; simp [presentWeightedSum, presentWeightSum]
  | cons e t ih =>
    intro a b
    obtain ⟨ov, w⟩ := e
    cases ov with
    | none =>
      simp only [List.foldl_cons, ih]
      simp [presentWeightedSum, presentWeightSum]
    | some v =>
      simp only [List.foldl_cons, ih]
      simp [presentWeightedSum, presentWeightSum]
      constructor <;> ring

lemma compositeOf_eq (entries : List (Option ℚ × ℚ)) :
    compositeOf entries =
      if 0 < presentWeightSum entries then
        some (presentWeightedSum entries / presentWeightSum entries)
      else none := by
  simp only [compositeOf]
  rw [compositeOf_foldl entries 0 0]
  simp

lemma round3_round3 (x : ℚ) : round3 (round3 x) = round3 x := by
  unfold round3
  rw [div_mul_cancel₀ _ (by norm_num : (1000 : ℚ) ≠ 0)]
  rw [round_intCast]

lemma thresholds_sunny : WEATHER_THRESHOLDS "sunny" = 6/10 := rfl

lemma thresholds_partly : WEATHER_THRESHOLDS "partly_cloudy" = 3/10 := rfl

lemma thresholds_cloudy : WEATHER_THRESHOLDS "cloudy" = 0 := rfl

lemma thresholds_rainy : WEATHER_THRESHOLDS "rainy" = -(3/10) := rfl

lemma fmt2_zero : fmt2 0 = "0.00" := by
  norm_num [fmt2]
  decide

lemma parseUnsignedDec_nonneg (l : List Char) : 0 ≤ parseUnsignedDec l := by
  unfold parseUnsignedDec
  positivity

lemma summaryWeakness_false_of_nonneg (so : SignalOut)
    (h : ∀ vp, so.vs_peers = some vp → 0 ≤ parseFloat (vp.drop 1)) :
    summaryWeakness so = false := by
  cases hvp : so.vs_peers with
  | none => simp [summaryWeakness, hvp]
  | some vp =>
    have h0 : 0 ≤ parseFloat (vp.drop 1) := h vp hvp
    have hlt : ¬ parseFloat (vp.drop 1) < -((1 : ℚ)/10) := by
      intro hc
      linarith
    simp only [summaryWeakness, hvp]
    simp [hlt]
    intro _ _
    linarith

lemma weaknessesOf_nil_of_nonneg (signals : List (String × SignalOut))
    (h : ∀ p ∈ signals, ∀ vp, p.2.vs_peers = some vp →
      0 ≤ parseFloat (vp.drop 1)) :
    weaknessesOf signals = [] := by
  induction signals with
  | nil => rfl
  | cons p rest ih =>
    have hp : summaryWeakness p.2 = false :=
      summaryWeakness_false_of_nonneg p.2 (h p (List.mem_cons_self p rest))
    have hrest := ih (fun q hq => h q (List.mem_cons_of_mem p hq))
    simp [weaknessesOf, List.filter_cons, hp] at hrest ⊢
    exact hrest

lemma downFrom_map_getD {α : Type} (f : ℕ → α) (d : α) :
    ∀ n i, i < n → ((downFrom n).map f).getD i d = f (n - 1 - i) := by
  intro n
  induction n with
  | zero => intro i h; omega
  | succ m ih =>
    intro i h
    cases i with
    | zero => simp [downFrom]
    | succ j =>
      have hj : j < m := by omega
      have : m - 1 - j = m + 1 - 1 - (j + 1) := by omega
      rw [← this]
      simpa [downFrom] using ih j hj

/-! ## Claim theorems -/

/-- C2 counterexample: a composite of exactly 0.5 (adjusted score exactly
0.0) is NOT classified `cloudy`: the strict `>` at the `cloudy` threshold
sends it to the band below. -/
theorem weather_half_score_not_cloudy :
    determine_weather (some (1/2)) ≠ "cloudy" := by
  norm_num [determine_weather, thresholds_sunny, thresholds_partly,
    thresholds_cloudy, thresholds_rainy]
  decide

/-- C2 (amended): the classifier maps a present composite 1.0 to `sunny`,
composite 0.5 (adjusted exactly 0.0) to `rainy` — the strict `>` at the
`cloudy` threshold sends adjusted 0.0 to the next band down — and
composite 0.0 to `stormy`. -/
theorem weather_boundary_states :
    determine_weather (some 1) = "sunny"
    ∧ determine_weather (some (1/2)) = "rainy"
    ∧ determine_weather (some 0) = "stormy" := by
  norm_num [determine_weather, thresholds_sunny, thresholds_partly,
    thresholds_cloudy, thresholds_rainy]

/-- C7: with all four signals absent the composite is absent (not zero)
and the forecast is `foggy`; `foggy` differs from `stormy`; and a present
composite is never classified `foggy`. -/
theorem all_absent_composite_foggy :
    compositeScore none none none none = none
    ∧ determine_weather (compositeScore none none none none) = "foggy"
    ∧ "foggy" ≠ "stormy"
    ∧ ∀ q : ℚ, determine_weather (some q) ≠ "foggy" := by
  have hnone : compositeScore none none none none = none := by
    norm_num [compositeScore, compositeOf]
  refine ⟨hnone, by rw [hnone]; rfl, by decide, ?_⟩
  intro q
  simp only [determine_weather]
  split
  · decide
  · split
    · decide
    · split
      · decide
      · split <;> decide

/-- C6: whenever at least one signal is present (with the program's
nonnegative weights), the composite equals the sum of present
score-times-weight divided by the sum of the present signals' weights,
absent signals' weights excluded from the denominator; and appending one
more absent signal never changes the composite. -/
theorem composite_renormalizes (entries : List (Option ℚ × ℚ))
    (hnn : ∀ e ∈ entries, 0 ≤ e.2)
    (hpresent : ∃ e ∈ entries, e.1.isSome ∧ 0 < e.2) :
    compositeOf entries =
      some (presentWeightedSum entries / presentWeightSum entries)
    ∧ ∀ w : ℚ, compositeOf (entries ++ [(none, w)]) = compositeOf entries := by
  constructor
  · have hpos : 0 < presentWeightSum entries := by
      apply sum_pos_of_all_nonneg_of_mem_pos
      · intro x hx
        rcases List.mem_map.mp hx with ⟨e, he, rfl⟩
        exact hnn e (List.mem_of_mem_filter he)
      · rcases hpresent with ⟨e, he, hsome, hpos⟩
        refine ⟨e.2, List.mem_map.mpr ⟨e, ?_, rfl⟩, hpos⟩
        exact List.mem_filter.mpr ⟨he, hsome⟩
    rw [compositeOf_eq, if_pos hpos]
  · intro w
    unfold compositeOf
    rw [List.foldl_append]
    rfl

/-- C6 witness: one present signal at score 1 and one absent signal. -/
theorem composite_renormalizes_witness :
    compositeOf [(some 1, 1/4), (none, 1/4)] =
      some (presentWeightedSum [(some 1, 1/4), (none, 1/4)] /
        presentWeightSum [(some 1, 1/4), (none, 1/4)])
    ∧ ∀ w : ℚ,
        compositeOf ([(some 1, 1/4), (none, 1/4)] ++ [(none, w)]) =
          compositeOf [(some 1, 1/4), (none, 1/4)] :=
  composite_renormalizes [(some 1, 1/4), (none, 1/4)]
    (by intro e he
        rcases List.mem_cons.mp he with rfl | he2
        · norm_num
        · rcases List.mem_cons.mp he2 with rfl | he3
          · norm_num
          · cases he3)
    ⟨(some 1, 1/4), List.mem_cons_self _ _, rfl, by norm_num⟩

/-- C9: with a tracked ticker, a found stock and at least 10 price
samples, a trailing average of exactly 0 yields market score 0.5 — the
division by the trailing average is guarded and never performed with a
zero denominator. -/
theorem market_zero_average_guard (stocks : List Stock) (c t : String)
    (s : Stock) (ht : COMPANY_STOCK_MAP c = some t)
    (hf : stocks.find? (fun x => x.ticker == t) = some s)
    (hlen : 10 ≤ s.history.length)
    (havg : trailingAvg s.history = 0) :
    calculate_market_score (some ⟨some stocks⟩) c = some (1/2) := by
  simp only [calculate_market_score, ht, hf]
  rw [if_neg (by omega), if_pos havg]

/-- C9 witness: MSFT with ten closes of 0. -/
theorem market_zero_average_guard_witness :
    calculate_market_score
      (some ⟨some [⟨"MSFT", [0, 0, 0, 0, 0, 0, 0, 0, 0, 0]⟩]⟩) "openai" =
      some (1/2) :=
  market_zero_average_guard [⟨"MSFT", [0, 0, 0, 0, 0, 0, 0, 0, 0, 0]⟩]
    "openai" "MSFT" ⟨"MSFT", [0, 0, 0, 0, 0, 0, 0, 0, 0, 0]⟩
    rfl rfl (by norm_num) (by norm_num [trailingAvg])

/-- C10: whenever an organization's own score for a signal is present and
belongs to the roster values passed to the peer comparator (as `main`
always arranges), the `vs_peers` string is present; and when it is the
only present value for that signal the string is exactly `"+0.00"`. -/
theorem vs_peers_present_of_own_score (v : ℚ) (all_values : List (Option ℚ)) :
    (some v ∈ all_values → (calculate_vs_peers (some v) all_values).isSome)
    ∧ (all_values.filterMap id = [v] →
        calculate_vs_peers (some v) all_values = some "+0.00") := by
  constructor
  · intro hmem
    have hne : all_values ≠ [] := List.ne_nil_of_mem hmem
    have hvalid : v ∈ all_values.filterMap id :=
      List.mem_filterMap.mpr ⟨some v, hmem, rfl⟩
    have hvne : all_values.filterMap id ≠ [] := List.ne_nil_of_mem hvalid
    simp only [calculate_vs_peers]
    rw [if_neg hne, if_neg hvne]
    rfl
  · intro hfm
    have hne : all_values ≠ [] := by
      intro h
      rw [h] at hfm
      exact List.cons_ne_nil v [] hfm.symm
    simp only [calculate_vs_peers, hfm]
    rw [if_neg hne, if_neg (List.cons_ne_nil v [])]
    have havg : v - ([v] : List ℚ).sum / (([v] : List ℚ).length : ℕ) = 0 := by
      simp
    rw [havg, if_pos (le_refl (0 : ℚ)), fmt2_zero]
    rfl

/-- C8: the market score is absent for an organization without a tracked
ticker and for a found stock with fewer than 10 price samples; otherwise,
when the trailing average is nonzero, with momentum the latest close
divided by the mean of the trailing `min(30, N)` closes, the score is
`(momentum - 0.8) / 0.4` clamped to `[0, 1]` — hence momentum 1.0 gives
0.5, momentum 1.2 gives 1.0, and momentum ≤ 0.8 gives 0.0. -/
theorem market_score_spec :
    (∀ (stocks_data : Option StocksData) (c : String),
      COMPANY_STOCK_MAP c = none → calculate_market_score stocks_data c = none)
    ∧ (∀ (stocks : List Stock) (c t : String) (s : Stock),
        COMPANY_STOCK_MAP c = some t →
        stocks.find? (fun x => x.ticker == t) = some s →
        s.history.length < 10 →
        calculate_market_score (some ⟨some stocks⟩) c = none)
    ∧ (∀ (stocks : List Stock) (c t : String) (s : Stock),
        COMPANY_STOCK_MAP c = some t →
        stocks.find? (fun x => x.ticker == t) = some s →
        10 ≤ s.history.length →
        trailingAvg s.history ≠ 0 →
        calculate_market_score (some ⟨some stocks⟩) c =
          some (max 0 (min 1
            ((latestClose s.history / trailingAvg s.history - 8/10) / (4/10))))
        ∧ (latestClose s.history / trailingAvg s.history = 1 →
            calculate_market_score (some ⟨some stocks⟩) c = some (1/2))
        ∧ (latestClose s.history / trailingAvg s.history = 12/10 →
            calculate_market_score (some ⟨some stocks⟩) c = some 1)
        ∧ (latestClose s.history / trailingAvg s.history ≤ 8/10 →
            calculate_market_score (some ⟨some stocks⟩) c = some 0)) := by
  refine ⟨?_, ?_, ?_⟩
  · intro stocks_data c h
    rcases stocks_data with _ | ⟨_ | stocks⟩ <;> simp [calculate_market_score, h]
  · intro stocks c t s ht hf hlt
    simp only [calculate_market_score, ht, hf]
    rw [if_pos hlt]
  · intro stocks c t s ht hf hlen havg
    have hmain : calculate_market_score (some ⟨some stocks⟩) c =
        some (max 0 (min 1
          ((latestClose s.history / trailingAvg s.history - 8/10) / (4/10)))) := by
      simp only [calculate_market_score, ht, hf]
      rw [if_neg (by omega), if_neg havg]
    refine ⟨hmain, ?_, ?_, ?_⟩
    · intro hm
      rw [hmain, hm]
      norm_num
    · intro hm
      rw [hmain, hm]
      norm_num
    · intro hm
      have hq : (latestClose s.history / trailingAvg s.history - 8/10) / (4/10) ≤ 0 := by
        apply div_nonpos_of_nonpos_of_nonneg
        · linarith
        · norm_num
      rw [hmain, min_eq_right (hq.trans zero_le_one), max_eq_left hq]

/-- C3 counterexample: with no mood document and a buzz document whose
`companies` table lacks the organization, neither of the organization's
own sentiment sources exists, yet the sentiment score is the neutral
default 0.5 rather than absent. -/
theorem sentiment_defaults_when_company_absent :
    calculate_sentiment_score none (some ⟨some []⟩) "anthropic" = some (1/2) := by
  norm_num [calculate_sentiment_score]

/-- C3 (amended): the sentiment score is the mean of the rescaled
`(polarity+1)/2` values of the document-level sources present — the blog
source whenever the mood document carries a `sentiment` object (score
defaulting to 0) and the forum source whenever the buzz document carries
a `companies` table (the organization's entry and its sentiment
defaulting to neutral 0) — and it is absent exactly when neither
document-level source is present. -/
theorem sentiment_mean_of_document_sources (mood_data : Option MoodData)
    (buzz_data : Option BuzzData) (company_id : String) :
    calculate_sentiment_score mood_data buzz_data company_id =
      (let present :=
        [blogContribution mood_data,
          buzzContribution buzz_data company_id].filterMap id
       if present = [] then none else some (present.sum / present.length)) := by
  rcases mood_data with _ | ⟨_ | ms⟩ <;>
    rcases buzz_data with _ | ⟨_ | companies⟩ <;>
      simp [calculate_sentiment_score, blogContribution, buzzContribution]

/-- C1: the weakness branch of the summary generator is dead for the
sign-stripped delta strings it receives — `float(vs_peers[1:])` of a
produced string is never below `-0.1` because the leading sign has been
dropped — so a signal 0.20 below the peer mean is not reported as a
weakness and the summary falls back to the weather description instead
of listing the weakness. -/
theorem summary_weakness_branch_dead :
    (∀ signals : List (String × SignalOut),
      (∀ p ∈ signals, ∀ vp, p.2.vs_peers = some vp →
        0 ≤ parseFloat (vp.drop 1)) →
      weaknessesOf signals = [])
    ∧ weaknessesOf [("sentiment", ⟨some (3/10), some "-0.20"⟩)] = []
    ∧ generate_summary [("sentiment", ⟨some (3/10), some "-0.20"⟩)] "cloudy" =
        "Below average performance" := by
  have hnn : ∀ p ∈ [(("sentiment" : String),
      (⟨some (3/10), some "-0.20"⟩ : SignalOut))], ∀ vp,
      p.2.vs_peers = some vp → 0 ≤ parseFloat (vp.drop 1) := by
    intro p hp vp hvp
    rw [List.mem_singleton] at hp
    subst hp
    have hvp2 : some "-0.20" = some vp := hvp
    obtain rfl : "-0.20" = vp := Option.some.inj hvp2
    have hdrop : ("-0.20".drop 1) = "0.20" := rfl
    have hpf : parseFloat "0.20" = parseUnsignedDec "0.20".toList := rfl
    rw [hdrop, hpf]
    exact parseUnsignedDec_nonneg _
  have hw : weaknessesOf [("sentiment", ⟨some (3/10), some "-0.20"⟩)] = [] :=
    weaknessesOf_nil_of_nonneg _ hnn
  have hs : strengthsOf [("sentiment", ⟨some (3/10), some "-0.20"⟩)] = [] := rfl
  refine ⟨weaknessesOf_nil_of_nonneg, hw, ?_⟩
  simp only [generate_summary, hs, hw]
  rfl

/-- C4: element `i` of the produced weekly activity series counts the
week `weeks - 1 - i` weeks back, so the series is oldest-first and its
most recent entries sit at the END; yet with the most recent 7 weekly
counts all 0 (and the oldest 7 all 3) the shipping score is 1.0, because
`activity[:7]` reads the OLDEST seven entries instead of the most recent
seven its own comment ("last 7 entries = last week") and the spec
describe. -/
theorem shipping_reads_oldest_entries :
    (∀ (today : ℚ) (releases : List Release) (weeks i : ℕ), i < weeks →
      (calculate_real_activity today releases weeks).getD i 0 =
        weekCount today (weeks - 1 - i) releases)
    ∧ calculate_shipping_score
        (some ⟨some [("anthropic",
          ⟨[3, 3, 3, 3, 3, 3, 3, 0, 0, 0, 0, 0, 0, 0], []⟩)]⟩)
        "anthropic" = some 1 := by
  constructor
  · intro today releases weeks i h
    exact downFrom_map_getD (fun week => weekCount today week releases) 0 weeks i h
  · simp only [calculate_shipping_score, List.lookup]
    norm_num
    refine ⟨by simp, ?_⟩
    rw [if_neg (by simp)]
    norm_num

lemma downFrom_length (n : ℕ) : (downFrom n).length = n := by
  induction n with
  | zero => rfl
  | succ m ih => simp [downFrom, ih]

lemma downFrom_getD : ∀ (n i : ℕ), i < n → (downFrom n).getD i 0 = n - 1 - i := by
  intro n
  induction n with
  | zero => intro i h; omega
  | succ m ih =>
    intro i h
    cases i with
    | zero => simp [downFrom]
    | succ j =>
      have hj : j < m := by omega
      have he : m - 1 - j = m + 1 - 1 - (j + 1) := by omega
      rw [← he]
      simpa [downFrom] using ih j hj

lemma insertByDate_length (p : Post) (l : List Post) :
    (insertByDate p l).length = l.length + 1 := by
  induction l with
  | nil => rfl
  | cons q rest ih => simp only [insertByDate]; split <;> simp [ih]

lemma sortByDate_length (l : List Post) : (sortByDate l).length = l.length := by
  induction l with
  | nil => rfl
  | cons p rest ih =>
    show (insertByDate p (sortByDate rest)).length = rest.length + 1
    rw [insertByDate_length, ih]

lemma moodLoop_length (today : ℚ) (dated : List Post) :
    ∀ (offs : List ℕ) (prev : Option ℚ),
      (moodLoop today dated prev offs).length = offs.length := by
  intro offs
  induction offs with
  | nil => intro prev; rfl
  | cons o rest ih => intro prev; simp [moodLoop, ih]

lemma moodLoop_mem_round (today : ℚ) (dated : List Post) :
    ∀ (offs : List ℕ) (prev : Option ℚ) (q : ℚ),
      q ∈ moodLoop today dated prev offs → ∃ x, q = round3 x := by
  intro offs
  induction offs with
  | nil => intro prev q hq; simp [moodLoop] at hq
  | cons o rest ih =>
    intro prev q hq
    simp only [moodLoop] at hq
    rcases List.mem_cons.mp hq with rfl | ht
    · exact ⟨_, rfl⟩
    · exact ih _ q ht

lemma moodLoop_carry (today : ℚ) (dated : List Post) :
    ∀ (offs : List ℕ) (prev : Option ℚ) (i : ℕ),
      i + 1 < offs.length →
      windowPosts today dated (offs.getD (i + 1) 0) = [] →
      (moodLoop today dated prev offs).getD (i + 1) 0 =
        (moodLoop today dated prev offs).getD i 0 := by
  intro offs
  induction offs with
  | nil => intro prev i h _; simp at h
  | cons o rest ih =>
    intro prev i h hw
    cases i with
    | zero =>
      cases rest with
      | nil => simp at h
      | cons r rest2 =>
        have hwr : windowPosts today dated r = [] := by simpa using hw
        simp [moodLoop, hwr, round3_round3]
    | succ j =>
      simp only [moodLoop, List.getD_cons_succ]
      apply ih
      · simpa using h
      · simpa using hw

/-- C5 counterexample: for the empty post list the builder returns an
empty history, not the requested 30 points, refuting "exactly N points
for every list of posts". -/
theorem mood_history_empty_posts_not_capped :
    (build_mood_history 0 [] 30).length ≠ 30 := by
  norm_num [build_mood_history]

/-- C5 (amended): for every post list containing at least one dated post,
the builder yields exactly `days` points, oldest-first (element `i`
covers the window ending `days - 1 - i` days before now), each a
3-decimal-rounded value, and a day whose 7-day window is empty repeats
the previous day's value.  (An empty post list yields an empty history,
and a nonempty list with no dated posts yields `min 7 days` copies of the
rounded overall average.) -/
theorem mood_history_with_dated_spec (today : ℚ) (posts : List Post)
    (days : ℕ) (h : ∃ p ∈ posts, p.datetime.isSome = true) :
    (build_mood_history today posts days).length = days
    ∧ (∀ q ∈ build_mood_history today posts days, ∃ x, q = round3 x)
    ∧ (∀ i, i < days → i ≠ 0 →
        windowPosts today (datedSorted posts) (days - 1 - i) = [] →
        (build_mood_history today posts days).getD i 0 =
          (build_mood_history today posts days).getD (i - 1) 0) := by
  obtain ⟨p, hp, hdt⟩ := h
  have hposts : posts ≠ [] := List.ne_nil_of_mem hp
  have hmem : p ∈ posts.filter (fun q => q.datetime.isSome) :=
    List.mem_filter.mpr ⟨hp, hdt⟩
  have hdated : datedSorted posts ≠ [] := by
    intro hnil
    have := sortByDate_length (posts.filter (fun q => q.datetime.isSome))
    rw [datedSorted] at hnil
    rw [hnil] at this
    have hlen : (posts.filter (fun q => q.datetime.isSome)).length ≠ 0 :=
      List.length_pos.mpr (List.ne_nil_of_mem hmem) |>.ne'
    exact hlen this.symm
  have hbuild : build_mood_history today posts days =
      moodLoop today (datedSorted posts) none (downFrom days) := by
    rw [build_mood_history, if_neg hposts]
    simp only
    rw [if_neg hdated]
  refine ⟨?_, ?_, ?_⟩
  · rw [hbuild, moodLoop_length, downFrom_length]
  · intro q hq
    rw [hbuild] at hq
    exact moodLoop_mem_round today (datedSorted posts) (downFrom days) none q hq
  · intro i hi hne hwin
    obtain ⟨j, rfl⟩ : ∃ j, i = j + 1 := ⟨i - 1, by omega⟩
    rw [hbuild]
    have hlen : j + 1 < (downFrom days).length := by
      rw [downFrom_length]; omega
    have hoff : (downFrom days).getD (j + 1) 0 = days - 1 - (j + 1) :=
      downFrom_getD days (j + 1) (by omega)
    have hwin2 : windowPosts today (datedSorted posts)
        ((downFrom days).getD (j + 1) 0) = [] := by
      rw [hoff]; exact hwin
    have := moodLoop_carry today (datedSorted posts) (downFrom days) none j
      hlen hwin2
    simpa using this

/-- C5 witness: one dated post, two requested days, with the second
day's window empty. -/
theorem mood_history_with_dated_spec_witness :
    (build_mood_history 100 [⟨some 0, some (1/2)⟩] 2).length = 2
    ∧ (∀ q ∈ build_mood_history 100 [⟨some 0, some (1/2)⟩] 2, ∃ x, q = round3 x)
    ∧ (∀ i, i < 2 → i ≠ 0 →
        windowPosts 100 (datedSorted [⟨some 0, some (1/2)⟩]) (2 - 1 - i) = [] →
        (build_mood_history 100 [⟨some 0, some (1/2)⟩] 2).getD i 0 =
          (build_mood_history 100 [⟨some 0, some (1/2)⟩] 2).getD (i - 1) 0) :=
  mood_history_with_dated_spec 100 [⟨some 0, some (1/2)⟩] 2
    ⟨⟨some 0, some (1/2)⟩, List.mem_singleton.mpr rfl, rfl⟩

end RyOS
